import Mathlib

/-!
Verification development for the DocumentSearchAssistant repository.

The development shallowly embeds the algorithmic core of the server:
the two cosine-similarity routines (`server/storage.ts` `MemStorage` and
`server/services/generateAI.ts`), the two embedding generators
(`server/services/openai.ts` and `server/services/generateAI.ts`), the
in-memory storage with vector search and related-document discovery
(`MemStorage.searchDocuments`, `MemStorage.findRelatedDocuments`), the
document chunker and search orchestrator of
`server/services/documentProcessor.ts`, and the inline chunk scoring of
the `/api/answer` route in `server/routes.ts`.

Modelling conventions:
- A JavaScript `number` that can arise in these code paths is either a
  finite real or `NaN`; it is modelled as `Option ℝ` with `none` playing
  the role of `NaN`.  (Division is the only operation below that can
  produce a non-finite value from finite operands; at every division
  site in the modelled code a zero denominator forces a zero or `NaN`
  numerator, so `Infinity` never arises and `none` also stands for the
  result of dividing by zero.)
- JavaScript `Map`s keyed by the stored record id and iterated with
  `.values()` are modelled as insertion-ordered lists of the stored
  records; lookup by key becomes `List.find?` on the record id field,
  which agrees with the map because every writer stores records under
  their own id.
- Arrays of numbers are `List JsNum`; reading past the end of an array
  yields `undefined`, whose arithmetic behaves like `NaN` (`none`).
- `async` functions that can throw are modelled in `Except String`;
  functions that cannot throw are plain.
-/

/-- A JavaScript number value: a finite real, or `none` for `NaN`
(and for the non-finite results of degenerate divisions, which in the
modelled code always have the value `NaN`). -/
abbrev JsNum := Option ℝ

/-- JavaScript addition: `NaN` propagates. -/
def jsAdd : JsNum → JsNum → JsNum
  | some x, some y => some (x + y)
  | _, _ => none

/-- JavaScript subtraction: `NaN` propagates. -/
def jsSub : JsNum → JsNum → JsNum
  | some x, some y => some (x - y)
  | _, _ => none

/-- JavaScript multiplication: `NaN` propagates. -/
def jsMul : JsNum → JsNum → JsNum
  | some x, some y => some (x * y)
  | _, _ => none

/-- JavaScript division as it occurs in the modelled code: `NaN`
propagates, and a zero denominator yields `none` (at every division site
in the modelled code the numerator is also zero or `NaN` when the
denominator is zero, so the JavaScript result there is `NaN`). -/
noncomputable def jsDiv : JsNum → JsNum → JsNum
  | some x, some y => if y = 0 then none else some (x / y)
  | _, _ => none

/-- Model of `Math.sqrt`: `NaN` on `NaN` and on negative input. -/
noncomputable def jsSqrt : JsNum → JsNum
  | some x => if x < 0 then none else some (Real.sqrt x)
  | none => none

/-- Model of `v.reduce((sum, val) => sum + val * val, 0)`: the sum of squares
accumulator used by every magnitude computation in the source. -/
def sumSquares (v : List JsNum) : JsNum :=
  v.foldl (fun sum val => jsAdd sum (jsMul val val)) (some 0)

/-- The dot-product loop `for i: dot += v1[i] * v2[i]` over the common
prefix of the two arrays (the `MemStorage` version only runs it after
checking the lengths are equal; the `generateAI` version iterates to
`Math.min(vec1.length, vec2.length)`). -/
def dotProduct (v1 v2 : List JsNum) : JsNum :=
  (List.zipWith jsMul v1 v2).foldl jsAdd (some 0)

/-- Reading `v[i]`: `undefined` past the end behaves as `NaN` in
arithmetic. -/
def jsIndex (v : List JsNum) (i : Nat) : JsNum :=
  match v[i]? with
  | some x => x
  | none => none

/-- Score of `NaN` sorts as bottom; used to state "non-increasing score"
order.  `scoreRealGe a b` means the score `a` is at least the score `b`. -/
def scoreRealGe (a b : JsNum) : Prop :=
  (b.elim (⊥ : WithBot ℝ) (fun y => (y : WithBot ℝ))) ≤
    (a.elim (⊥ : WithBot ℝ) (fun x => (x : WithBot ℝ)))

namespace MemStorage

/-- The private helper `MemStorage.calculateCosineSimilarity` of
`server/storage.ts`: throws when the lengths differ, otherwise computes
`dot / (sqrt(mag1) * sqrt(mag2))` with no zero-magnitude guard. -/
noncomputable def calculateCosineSimilarity (vec1 vec2 : List JsNum) :
    Except String JsNum :=
  if vec1.length ≠ vec2.length then
    Except.error "Vectors must have the same length"
  else
    Except.ok (jsDiv (dotProduct vec1 vec2)
      (jsMul (jsSqrt (sumSquares vec1)) (jsSqrt (sumSquares vec2))))

end MemStorage

/-- A document record as stored by `MemStorage.createDocument`
(`shared/schema.ts` table `documents`; the upload timestamp is modelled
as a number, and the free-form metadata record is omitted because no
modelled code path reads it). -/
structure Document where
  id : Nat
  title : String
  fileUrl : String
  fileType : String
  uploadedBy : Nat
  uploadedAt : Nat
deriving DecidableEq

/-- A chunk record as stored by `MemStorage.createChunk`: the embedding
is optional (`absent` exactly when embedding generation failed and the
chunk was stored without one). -/
structure Chunk where
  id : Nat
  documentId : Nat
  chunkIndex : Nat
  chunkText : String
  embedding : Option (List JsNum)

/-- The in-memory state of `MemStorage`: the `documents` and `chunks`
maps in insertion order.  The `users` and `searchHistory` tables and the
id counters are omitted: no claim settled below reads them. -/
structure MemStorage where
  documents : List Document
  chunks : List Chunk

/-- An element of the intermediate `results` array of
`MemStorage.searchDocuments`. -/
structure ScoredChunk where
  documentId : Nat
  score : JsNum
  chunkId : Nat

/-- An entry of the `uniqueResults` map of `MemStorage.searchDocuments`
and of its returned array. -/
structure DocScore where
  documentId : Nat
  score : JsNum

namespace MemStorage

/-- Model of `MemStorage.getDocument`: `this.documents.get(id)`, i.e. lookup of
the record stored under `id` (records are stored under their own id). -/
def getDocument (s : MemStorage) (id : Nat) : Option Document :=
  s.documents.find? (fun d => d.id == id)

/-- Model of `MemStorage.getChunksByDocument`: filter all chunk records by owning
document id. -/
def getChunksByDocument (s : MemStorage) (documentId : Nat) : List Chunk :=
  s.chunks.filter (fun c => c.documentId == documentId)

/-- The chunks the `searchDocuments` scan scores: those whose
`chunk.embedding` is present (the `if (chunk.embedding)` truthiness test;
an array, even empty, is truthy), paired with that embedding. -/
def embeddedChunks (s : MemStorage) : List (Chunk × List JsNum) :=
  s.chunks.filterMap (fun c => c.embedding.map (fun e => (c, e)))

/-- The scoring loop of `MemStorage.searchDocuments`: for each embedded
chunk push `{documentId, score, chunkId}`; a similarity error (length
mismatch) aborts the whole call. -/
noncomputable def searchScoresList (embedding : List JsNum) :
    List (Chunk × List JsNum) → Except String (List ScoredChunk)
  | [] => Except.ok []
  | ce :: rest => do
    let score ← calculateCosineSimilarity embedding ce.2
    let tail ← searchScoresList embedding rest
    Except.ok (⟨ce.1.documentId, score, ce.1.id⟩ :: tail)

/-- The comparator `(a, b) => b.score - a.score` of the `results.sort`
call, as the Boolean relation "keep `a` no later than `b`".  Under
ES2019 a comparator result of `NaN` is treated as `0` (a tie), which
makes the comparator inconsistent and the engine's order
implementation-defined when `NaN` scores are present; the model resolves
that unspecified case by ordering `NaN` scores last, and agrees with the
engine (stable sort, descending score) whenever no score is `NaN`. -/
noncomputable def scoreDescB (a b : ScoredChunk) : Bool :=
  @decide (scoreRealGe a.score b.score)
    (Classical.propDecidable _)

/-- The JavaScript comparison `a < b` on scores: false whenever either
side is `NaN`. -/
noncomputable def jsLtScoreB (a b : JsNum) : Bool :=
  match a, b with
  | some x, some y => @decide (x < y) (Classical.propDecidable _)
  | _, _ => false

/-- Model of the call setting a dedup entry: a `Map.set`
replaces the value in place when the key is present and appends
otherwise. -/
def mapSet (m : List DocScore) (documentId : Nat) (score : JsNum) :
    List DocScore :=
  if m.any (fun x => x.documentId == documentId) then
    m.map (fun x => if x.documentId == documentId then ⟨documentId, score⟩ else x)
  else m ++ [⟨documentId, score⟩]

/-- One iteration of the dedup `forEach`:
`if (!uniqueResults.has(d) || uniqueResults.get(d)!.score < r.score) set(...)`. -/
noncomputable def dedupStep (m : List DocScore) (r : ScoredChunk) :
    List DocScore :=
  if !(m.any (fun x => x.documentId == r.documentId)) ||
      jsLtScoreB
        (match m.find? (fun x => x.documentId == r.documentId) with
          | some x => x.score
          | none => none)
        r.score then
    mapSet m r.documentId r.score
  else m

/-- Model of `MemStorage.searchDocuments`: score every embedded chunk, sort the
scores descending, keep the best score per document (first-inserted
order), and truncate to `limit`. -/
noncomputable def searchDocuments (s : MemStorage) (embedding : List JsNum)
    (limit : Nat := 10) : Except String (List DocScore) :=
  Except.map
    (fun results =>
      (((results.mergeSort scoreDescB).foldl dedupStep []).take limit))
    (searchScoresList embedding (embeddedChunks s))

/-- Model of the running `documentEmbedding` accumulation of
`findRelatedDocuments`: component-wise addition `acc[i] += e[i]`.  When
`e` is longer than `acc`, the positions beyond `acc.length` read
`undefined` and store `NaN`; positions of `acc` beyond `e.length` are
left unchanged. -/
def jsAddVec : List JsNum → List JsNum → List JsNum
  | a :: as, x :: xs => jsAdd a x :: jsAddVec as xs
  | as, [] => as
  | [], _ :: xs => none :: jsAddVec [] xs

/-- The body of `MemStorage.findRelatedDocuments` without its enclosing
`try`/`catch`: unknown document, chunkless document and
embedding-less document all return `[]`; otherwise the mean chunk
embedding queries `searchDocuments` with `limit + 1`, the source
document is filtered out, the ids are resolved and missing documents
dropped. -/
noncomputable def findRelatedDocumentsAux (s : MemStorage) (documentId : Nat)
    (limit : Nat) : Except String (List Document) :=
  match getDocument s documentId with
  | none => Except.ok []
  | some _ =>
    let chunks := getChunksByDocument s documentId
    if chunks.isEmpty then Except.ok []
    else
      -- `chunk.embedding && chunk.embedding.length > 0`
      let embs := (chunks.filterMap Chunk.embedding).filter
        (fun e => 0 < e.length)
      match embs with
      | [] => Except.ok []
      | e0 :: rest =>
        let summed := rest.foldl jsAddVec e0
        let documentEmbedding := summed.map
          (fun x => jsDiv x (some ((embs.length : ℝ))))
        match searchDocuments s documentEmbedding (limit + 1) with
        | Except.error e => Except.error e
        | Except.ok results =>
          Except.ok
            (((results.filter (fun r => r.documentId != documentId)).take limit).filterMap
              (fun r => getDocument s r.documentId))

/-- Model of `MemStorage.findRelatedDocuments`: the enclosing `try`/`catch`
returns `[]` on any thrown error (default `limit` is 3). -/
noncomputable def findRelatedDocuments (s : MemStorage) (documentId : Nat)
    (limit : Nat := 3) : List Document :=
  match findRelatedDocumentsAux s documentId limit with
  | Except.ok docs => docs
  | Except.error _ => []

end MemStorage

namespace GenerateAI

/-- Model of `calculateCosineSimilarity` of `server/services/generateAI.ts`: the
dot product runs over the common prefix, and a zero magnitude (tested
with `===`, hence false for `NaN`) returns `0` before dividing. -/
noncomputable def calculateCosineSimilarity (vec1 vec2 : List JsNum) : JsNum :=
  let mag1 := jsSqrt (sumSquares vec1)
  let mag2 := jsSqrt (sumSquares vec2)
  if mag1 = some 0 ∨ mag2 = some 0 then some 0
  else jsDiv (dotProduct vec1 vec2) (jsMul mag1 mag2)

end GenerateAI

/-- Invariant of the dedup `forEach` of `MemStorage.searchDocuments`,
relating the accumulated `uniqueResults` map `m` to the prefix
`processed` of the sorted score list that has already been folded in:
the map keys are distinct, its values keep non-increasing score order,
every value is the score of some processed entry with that key, every
value dominates all processed entries with its key, and every processed
key is present. -/
structure DedupInv (processed : List ScoredChunk) (m : List DocScore) : Prop where
  keys_nodup : (m.map DocScore.documentId).Nodup
  sorted : m.Pairwise (fun a b => scoreRealGe a.score b.score)
  attained : ∀ d ∈ m, ∃ r ∈ processed,
    r.documentId = d.documentId ∧ r.score = d.score
  ub : ∀ d ∈ m, ∀ r ∈ processed,
    r.documentId = d.documentId → scoreRealGe d.score r.score
  complete : ∀ r ∈ processed, ∃ d ∈ m, d.documentId = r.documentId

/-- A storage state with no documents and no chunks. -/
def emptyStorage : MemStorage := ⟨[], []⟩

/-- A concrete two-document state for exercising the search pipeline:
two embedded chunks with well-defined scores against the query
`[1, 0]`, and one chunk stored without an embedding. -/
def searchWitnessStorage : MemStorage :=
  ⟨[⟨1, "a", "/a", "TXT", 1, 0⟩, ⟨2, "b", "/b", "TXT", 1, 0⟩],
    [⟨1, 1, 0, "t1", some [some 1, some 0]⟩,
      ⟨2, 2, 0, "t2", some [some 0, some 1]⟩,
      ⟨3, 1, 1, "t3", none⟩]⟩

/-- A storage state holding a single chunk whose stored embedding has
two components, so that a one-component query vector has mismatched
length. -/
def mismatchStorage : MemStorage :=
  ⟨[⟨1, "doc", "/demo/doc", "TXT", 1, 0⟩],
    [⟨1, 1, 0, "chunk text", some [some 1, some 0]⟩]⟩

/-- Normalization shared by both embedding generators:
`magnitude = Math.sqrt(v.reduce((s, x) => s + x*x, 0))` followed by
`v.map(x => x / magnitude)`. -/
noncomputable def jsNormalize (v : List JsNum) : List JsNum :=
  let magnitude := jsSqrt (sumSquares v)
  v.map (fun val => jsDiv val magnitude)

namespace OpenAIApi

/-- Coercion of a double to a signed 32-bit integer, as performed by the
JavaScript `<<` operator. -/
def toInt32 (x : Int) : Int := (x + 2 ^ 31) % 2 ^ 32 - 2 ^ 31

/-- One step of the `generateFakeEmbedding` string hash
`((acc << 5) - acc) + charCode`: the shift coerces its operand to a
signed 32-bit integer and wraps; the subsequent subtraction and addition
are exact double arithmetic at these magnitudes. -/
def hashStep (acc : Int) (c : Char) : Int :=
  toInt32 (32 * acc) - acc + c.toNat

/-- The seed hash of `generateFakeEmbedding`:
`text.split('').reduce((acc, char) => ((acc << 5) - acc) + charCode, 0)`. -/
def jsHash (text : String) : Int := text.data.foldl hashStep 0

/-- Model of `openai.ts` `generateFakeEmbedding`: 1536 components
`Math.sin(hash * (i + 1)) / 2 + 0.5` over the raw (not lowercased) text
hash, then L2 normalization. -/
noncomputable def generateFakeEmbedding (text : String) : List JsNum :=
  let hash := jsHash text
  let embedding := (List.range 1536).map
    (fun (i : Nat) => some (Real.sin ((hash : ℝ) * ((i : ℝ) + 1)) / 2 + 0.5))
  jsNormalize embedding

/-- The outcome the external embedding provider would report if it were
invoked: a successful response (`response.data[0].embedding`) or a
thrown error carrying optional `code` and `status` fields. -/
inductive ProviderOutcome where
  | success (embedding : List JsNum)
  | failure (code : Option String) (status : Option Nat)

/-- The quota test of every catch block in `openai.ts`:
`error?.code === 'insufficient_quota' || error?.status === 429`. -/
def isQuotaError (code : Option String) (status : Option Nat) : Bool :=
  code == some "insufficient_quota" || status == some 429

/-- The observable result of one `generateEmbedding` call: the returned
vector, the value of the module-level flag `hasQuotaError` after the
call, and whether the external provider was invoked during the call. -/
structure EmbedCall where
  vec : List JsNum
  hasQuotaError : Bool
  calledProvider : Bool

/-- Model of `openai.ts` `generateEmbedding` as a state transformer on the
module-level flag `hasQuotaError`, parameterized by what the provider
call would do if invoked: a set flag short-circuits to the fallback
without contacting the provider; a success returns the provider vector;
a failure falls back, latching the flag exactly when the failure is a
quota error. -/
noncomputable def generateEmbedding (provider : ProviderOutcome)
    (hasQuotaError : Bool) (text : String) : EmbedCall :=
  if hasQuotaError then ⟨generateFakeEmbedding text, true, false⟩
  else
    match provider with
    | ProviderOutcome.success v => ⟨v, false, true⟩
    | ProviderOutcome.failure code status =>
      ⟨generateFakeEmbedding text, isQuotaError code status, true⟩

/-- A sequence of `generateEmbedding` calls in one process, threading
the `hasQuotaError` flag; returns the call results and the final flag. -/
noncomputable def runEmbedCalls :
    List (ProviderOutcome × String) → Bool → List EmbedCall × Bool
  | [], st => ([], st)
  | (p, t) :: rest, st =>
    let call := generateEmbedding p st t
    let next := runEmbedCalls rest call.hasQuotaError
    (call :: next.1, next.2)

end OpenAIApi

/-- Hex digit recognition for `parseInt(s, 16)` (both letter cases). -/
def isHexDigitChar (c : Char) : Bool :=
  (('0'.toNat ≤ c.toNat) && (c.toNat ≤ '9'.toNat)) ||
  (('a'.toNat ≤ c.toNat) && (c.toNat ≤ 'f'.toNat)) ||
  (('A'.toNat ≤ c.toNat) && (c.toNat ≤ 'F'.toNat))

/-- Value of a hex digit. -/
def hexDigitVal (c : Char) : Nat :=
  if ('0'.toNat ≤ c.toNat) && (c.toNat ≤ '9'.toNat) then c.toNat - '0'.toNat
  else if ('a'.toNat ≤ c.toNat) && (c.toNat ≤ 'f'.toNat) then
    c.toNat - 'a'.toNat + 10
  else c.toNat - 'A'.toNat + 10

/-- Model of `parseInt(s, 16)` as applied to digest substrings: the value of the
longest hex-digit prefix, `NaN` when there is none.  (The reference
engine rounds values beyond 2^53 to the nearest double; the value is
modelled exactly, which no settled claim depends on.) -/
def parseIntHex (s : String) : JsNum :=
  let ds := s.data.takeWhile isHexDigitChar
  if ds.isEmpty then none
  else some ((ds.foldl (fun acc c => 16 * acc + hexDigitVal c) 0 : Nat) : ℝ)

/-- Model of `String.prototype.toLowerCase()` on the ASCII range: the
per-character lowercasing map. -/
def jsToLowerCase (s : String) : String := String.mk (s.data.map Char.toLower)

/-- Model of `String.prototype.substring(a, b)`: clamps both indices to the
string length and swaps them when the start exceeds the end. -/
def jsSubstring (s : String) (a b : Nat) : String :=
  let x := min a s.data.length
  let y := min b s.data.length
  if x ≤ y then String.mk ((s.data.drop x).take (y - x))
  else String.mk ((s.data.drop y).take (x - y))

namespace GenerateAI

/-- Model of `generateAI.ts` `generateEmbedding`: the sha-256 hex digest of the
lowercased text (the digest primitive `crypto.createHash('sha256')` is a
Node built-in external to the repository and enters as the parameter
`sha256hex`), expanded into 128 components
`(parseInt(hash.substring((i*2) % len, (i*2+2) % len), 16) / 255) * 2 - 1`
and L2-normalized.  `text.toLowerCase()` is modelled by
`jsToLowerCase`.  A zero
digest length makes both `%` expressions `NaN` and the substring empty. -/
noncomputable def generateEmbedding (sha256hex : String → String)
    (text : String) : List JsNum :=
  let hash := sha256hex (jsToLowerCase text)
  let embedding := (List.range 128).map (fun i =>
    let hexPart :=
      if hash.length = 0 then ""
      else jsSubstring hash ((i * 2) % hash.length) ((i * 2 + 2) % hash.length)
    jsSub (jsMul (jsDiv (parseIntHex hexPart) (some 255)) (some 2)) (some 1))
  jsNormalize embedding

end GenerateAI

/-- JavaScript regex `\s` restricted to the ASCII range: space, tab,
newline, carriage return, vertical tab and form feed. -/
def jsWhitespace (c : Char) : Bool :=
  c == ' ' || c == '\t' || c == '\n' || c == '\r' ||
  c == '\x0b' || c == '\x0c'

namespace DocumentProcessor

/-- One left-to-right pass of `text.split(/\n\s*\n/)`.  `acc` holds the
current token (reversed).  The mode `none` is ordinary scanning; the
mode `some (wsAcc, seenNl)` means an opening newline has been read and
we are inside its whitespace run, where `wsAcc` holds (reversed) the
whitespace seen since the most recent newline of the run and `seenNl`
records whether the run contains a newline after the opening one.  The
separator regex matches from the opening newline up to the last newline
of the run (the greedy `\s*` backtracks to the final `\n`); trailing
non-newline whitespace of the run belongs to the next token. -/
def splitBlankGo : List Char → List Char → Option (List Char × Bool) →
    List (List Char)
  | [], acc, none => [acc.reverse]
  | [], acc, some (wsAcc, seenNl) =>
    if seenNl then [acc.reverse, wsAcc.reverse]
    else [(wsAcc ++ '\n' :: acc).reverse]
  | c :: cs, acc, none =>
    if c = '\n' then splitBlankGo cs acc (some ([], false))
    else splitBlankGo cs (c :: acc) none
  | c :: cs, acc, some (wsAcc, seenNl) =>
    if c = '\n' then splitBlankGo cs acc (some ([], true))
    else if jsWhitespace c then splitBlankGo cs acc (some (c :: wsAcc, seenNl))
    else if seenNl then acc.reverse :: splitBlankGo cs (c :: wsAcc) none
    else splitBlankGo cs (c :: (wsAcc ++ '\n' :: acc)) none

/-- Model of `text.split(/\n\s*\n/)`: the paragraph list of `splitIntoChunks`. -/
def jsSplitParagraphs (text : String) : List String :=
  (splitBlankGo text.data [] none).map String.mk

/-- The accumulation loop of `splitIntoChunks`: greedily append
paragraphs (joined by a blank line) while
`currentChunk.length + paragraph.length < maxChunkSize`, flushing the
non-empty current chunk otherwise; a final non-empty chunk is flushed at
the end. -/
def splitChunksLoop (maxChunkSize : Nat) :
    List String → String → List String
  | [], currentChunk =>
    if currentChunk.length = 0 then [] else [currentChunk]
  | paragraph :: rest, currentChunk =>
    if currentChunk.length + paragraph.length < maxChunkSize then
      splitChunksLoop maxChunkSize rest
        (if currentChunk.length = 0 then paragraph
          else currentChunk ++ "\n\n" ++ paragraph)
    else
      if currentChunk.length = 0 then splitChunksLoop maxChunkSize rest paragraph
      else currentChunk :: splitChunksLoop maxChunkSize rest paragraph

/-- Model of `documentProcessor.ts` `splitIntoChunks` (default maximum 1000). -/
def splitIntoChunks (text : String) (maxChunkSize : Nat := 1000) :
    List String :=
  splitChunksLoop maxChunkSize (jsSplitParagraphs text) ""

/-- JavaScript regex `\w`: ASCII letters, digits and underscore. -/
def jsWordChar (c : Char) : Bool := c.isAlphanum || c == '_'

/-- One pass of `s.split(/\W+/)`: mode `some acc` is inside a token
(reversed in `acc`), mode `none` is inside a separator run. -/
def splitNonWordGo : List Char → Option (List Char) → List (List Char)
  | [], some acc => [acc.reverse]
  | [], none => [[]]
  | c :: cs, some acc =>
    if jsWordChar c then splitNonWordGo cs (some (c :: acc))
    else acc.reverse :: splitNonWordGo cs none
  | c :: cs, none =>
    if jsWordChar c then splitNonWordGo cs (some [c])
    else splitNonWordGo cs none

/-- Model of `s.split(/\W+/)`. -/
def splitNonWord (s : String) : List String :=
  (splitNonWordGo s.data (some [])).map String.mk

/-- Substring containment on character lists (the `includes` test). -/
def containsSub : List Char → List Char → Bool
  | _, [] => true
  | [], _ :: _ => false
  | h :: hs, n :: ns =>
    if (n :: ns).isPrefixOf (h :: hs) then true else containsSub hs (n :: ns)

/-- Model of `haystack.includes(sub)` on strings. -/
def jsIncludes (s sub : String) : Bool := containsSub s.data sub.data

/-- Model of `documentProcessor.ts` `getDocumentSnippet`: tokenize the lowercased
query into terms longer than two characters, score each chunk of the
document by the number of terms contained in its lowercased text, pick
the first strictly-better chunk (defaulting to the first chunk), and
truncate the result to 197 characters plus an ellipsis when longer than
200. -/
def getDocumentSnippet (s : MemStorage) (documentId : Nat)
    (query : String) : String :=
  match MemStorage.getChunksByDocument s documentId with
  | [] => "No preview available"
  | c0 :: _ =>
    let chunks := MemStorage.getChunksByDocument s documentId
    let queryTerms := (splitNonWord (jsToLowerCase query)).filter
      (fun t => 2 < t.length)
    let best := chunks.foldl
      (fun (best : Chunk × Nat) chunk =>
        let score := queryTerms.countP
          (fun term => jsIncludes (jsToLowerCase chunk.chunkText) term)
        if best.2 < score then (chunk, score) else best)
      (c0, 0)
    let text := best.1.chunkText
    if 200 < text.length then String.mk (text.data.take 197) ++ "..."
    else text

/-- An entry of the result list of the exported `searchDocuments` of
`documentProcessor.ts`: the document record spread together with its
score and snippet. -/
structure AnnotatedDocument where
  document : Document
  score : JsNum
  snippet : String

/-- The comparator `(a, b) => (b.score || 0) - (a.score || 0)` of the
final sort: a falsy score (`0` or `NaN`) counts as `0`, so the
comparator is total and consistent even on `NaN` scores. -/
def jsOrZero : JsNum → ℝ
  | some x => x
  | none => 0

/-- The Boolean form of the final sort comparator. -/
noncomputable def annScoreDescB (a b : AnnotatedDocument) : Bool :=
  @decide (jsOrZero b.score ≤ jsOrZero a.score) (Classical.propDecidable _)

/-- The exported `searchDocuments` of `documentProcessor.ts` up to (and
excluding) the history-recording step: vector search with limit 10,
per-result document resolution and snippet annotation (a missing
document yields `null` and is filtered out), and the final descending
sort by score.  The query embedding — produced by the stateful
`generateEmbedding` of the `openai` module — enters as a parameter. -/
noncomputable def searchDocumentsCore (s : MemStorage)
    (queryEmbedding : List JsNum) (query : String) :
    Except String (List AnnotatedDocument) :=
  match MemStorage.searchDocuments s queryEmbedding 10 with
  | Except.error e => Except.error e
  | Except.ok searchResults =>
    let documents := searchResults.map (fun result =>
      match MemStorage.getDocument s result.documentId with
      | none => none
      | some document =>
        some (⟨document, result.score,
          getDocumentSnippet s document.id query⟩ : AnnotatedDocument))
    Except.ok ((documents.filterMap id).mergeSort annScoreDescB)

/-- The exported `searchDocuments` of `documentProcessor.ts`,
parameterized additionally by the outcome of the
`storage.createSearchHistory` call: its dedicated `try`/`catch` logs and
discards a failure, and the outer `catch` turns any earlier error into
an empty result list. -/
noncomputable def searchDocuments (s : MemStorage)
    (queryEmbedding : List JsNum) (query : String)
    (historyOutcome : Except String Unit) : List AnnotatedDocument :=
  match searchDocumentsCore s queryEmbedding query with
  | Except.error _ => []
  | Except.ok validDocuments =>
    match historyOutcome with
    | Except.ok _ => validDocuments
    | Except.error _ => validDocuments

end DocumentProcessor

namespace Routes

/-- The scoring loop of the `/api/answer` route over indices
`0 ≤ i < queryEmbedding.length`, reading `v[i]` (`undefined`, hence
`NaN`, past the end). -/
def dotRange (n : Nat) (v w : List JsNum) : JsNum :=
  ((List.range n).map (fun i => jsMul (jsIndex v i) (jsIndex w i))).foldl
    jsAdd (some 0)

/-- The inline chunk score of the `/api/answer` route (the
`documentIds` branch): `dot / (Math.sqrt(mag1) * Math.sqrt(mag2))` where
all three loops run over the query's indices only, so a longer chunk
embedding is silently truncated. -/
noncomputable def answerChunkScore (queryEmbedding chunkEmbedding :
    List JsNum) : JsNum :=
  jsDiv (dotRange queryEmbedding.length queryEmbedding chunkEmbedding)
    (jsMul (jsSqrt (dotRange queryEmbedding.length queryEmbedding queryEmbedding))
      (jsSqrt (dotRange queryEmbedding.length chunkEmbedding chunkEmbedding)))

/-- The same inline computation in `Except`, expressing that this code
path contains no `throw` and completes normally. -/
noncomputable def answerChunkScoreE (queryEmbedding chunkEmbedding :
    List JsNum) : Except String JsNum :=
  Except.ok (answerChunkScore queryEmbedding chunkEmbedding)

end Routes

/-- A constant stand-in for the sha-256 hex digest primitive, used to
instantiate theorems quantified over the digest function at a concrete
value. -/
def shaConst : String → String :=
  fun _ => "a665a45920422f9d417e4867efdc4fb8a04a1f3fff1fa07e998e86f7f7a27ae3"

/-- A 1001-character text of two paragraphs, "a" and 998 letters "b",
separated by one blank line: the greedy length check
`currentChunk.length + paragraph.length < 1000` passes (1 + 998 = 999)
but the two-character join pushes the produced chunk to 1001
characters. -/
def oversizedText : String := "a\n\n" ++ String.mk (List.replicate 998 'b')

/-- A state holding one chunk embedded by the `openai` module's fallback
generator (1536 components). -/
noncomputable def openAIEmbeddedStorage : MemStorage :=
  ⟨[⟨1, "doc", "/d", "TXT", 1, 0⟩],
    [⟨1, 1, 0, "text", some (OpenAIApi.generateFakeEmbedding "document text")⟩]⟩

/-- C1: the cosine similarity used by the vector index
(`MemStorage.calculateCosineSimilarity`) evaluated at the equal-length
pair `[0]`, `[1]` whose first vector has zero magnitude: the unguarded
division yields `0 / 0 = NaN` (`none`) rather than the score `0` that the
specification prescribes, while the guarded `generateAI` version of the
same computation does return `0`. -/
theorem memStorage_cosine_zero_magnitude_nan :
    MemStorage.calculateCosineSimilarity [some 0] [some 1] =
      Except.ok (none : JsNum) ∧
    (none : JsNum) ≠ some 0 ∧
    GenerateAI.calculateCosineSimilarity [some 0] [some 1] = some 0 := by
  refine ⟨?_, by simp, ?_⟩
  · norm_num [MemStorage.calculateCosineSimilarity, dotProduct, sumSquares,
      jsMul, jsAdd, jsSqrt, jsDiv, Real.sqrt_zero, Real.sqrt_one]
  · norm_num [GenerateAI.calculateCosineSimilarity, dotProduct, sumSquares,
      jsMul, jsAdd, jsSqrt, jsDiv, Real.sqrt_zero, Real.sqrt_one]

/-- C2 counterexample: at a state holding a two-component stored
embedding and a one-component query vector, `searchDocuments` does not
return a result list at all — `calculateCosineSimilarity` throws on the
length mismatch and the error propagates — refuting the claim for
"every index state and every query vector". -/
theorem searchDocuments_dimension_mismatch_throws :
    MemStorage.searchDocuments mismatchStorage [some 1] 10 =
      Except.error "Vectors must have the same length" := by
  rfl

/-- C6 counterexample: calling `findRelatedDocuments` with the unknown
document identifier 42 on the empty store yields the ordinary empty
result, with no error raised on any layer, refuting the
"surfaced as an explicit, typed error" claim. -/
theorem findRelatedDocuments_unknown_id_silent :
    MemStorage.findRelatedDocumentsAux emptyStorage 42 3 = Except.ok [] ∧
    MemStorage.findRelatedDocuments emptyStorage 42 3 = [] := by
  constructor <;> rfl

/-- C6 (amended): for every state and limit, when the document
identifier has no corresponding record (`getDocument` misses),
`findRelatedDocuments` silently returns the ordinary empty list and its
body completes without any error. -/
theorem findRelatedDocuments_unknown_id_returns_empty
    (s : MemStorage) (documentId limit : Nat)
    (h : MemStorage.getDocument s documentId = none) :
    MemStorage.findRelatedDocumentsAux s documentId limit = Except.ok [] ∧
    MemStorage.findRelatedDocuments s documentId limit = [] := by
  have haux : MemStorage.findRelatedDocumentsAux s documentId limit =
      Except.ok [] := by
    unfold MemStorage.findRelatedDocumentsAux
    rw [h]
  exact ⟨haux, by unfold MemStorage.findRelatedDocuments; rw [haux]⟩

/-- C6 witness: a concrete state holding document 1 only, queried with
the unknown identifier 7. -/
theorem findRelatedDocuments_unknown_id_returns_empty_witness :
    MemStorage.getDocument mismatchStorage 7 = none ∧
    (MemStorage.findRelatedDocumentsAux mismatchStorage 7 5 = Except.ok [] ∧
      MemStorage.findRelatedDocuments mismatchStorage 7 5 = []) :=
  ⟨by rfl, findRelatedDocuments_unknown_id_returns_empty mismatchStorage 7 5 (by rfl)⟩

/-- The score order is reflexive. -/
theorem scoreRealGe_refl (a : JsNum) : scoreRealGe a a := le_refl _

/-- The score order is transitive. -/
theorem scoreRealGe_trans {a b c : JsNum} (h1 : scoreRealGe a b)
    (h2 : scoreRealGe b c) : scoreRealGe a c := le_trans h2 h1

/-- The score order is total. -/
theorem scoreRealGe_total (a b : JsNum) : scoreRealGe a b ∨ scoreRealGe b a :=
  le_total _ _

/-- On two defined scores the order is the real order. -/
theorem scoreRealGe_some_some {x y : ℝ} :
    scoreRealGe (some x) (some y) ↔ y ≤ x := by
  simp [scoreRealGe]

/-- The sort comparator decides `scoreRealGe` on the scores. -/
theorem scoreDescB_eq_true {a b : ScoredChunk} :
    MemStorage.scoreDescB a b = true ↔ scoreRealGe a.score b.score := by
  simp [MemStorage.scoreDescB]

/-- Transitivity of the sort comparator, in the form `sorted_mergeSort`
expects. -/
theorem scoreDescB_trans (a b c : ScoredChunk)
    (h1 : MemStorage.scoreDescB a b) (h2 : MemStorage.scoreDescB b c) :
    MemStorage.scoreDescB a c :=
  scoreDescB_eq_true.mpr
    (scoreRealGe_trans (scoreDescB_eq_true.mp h1) (scoreDescB_eq_true.mp h2))

/-- Totality of the sort comparator, in the form `sorted_mergeSort`
expects. -/
theorem scoreDescB_total (a b : ScoredChunk) :
    MemStorage.scoreDescB a b || MemStorage.scoreDescB b a := by
  rcases scoreRealGe_total a.score b.score with h | h
  · simp [scoreDescB_eq_true.mpr h]
  · simp [scoreDescB_eq_true.mpr h]

/-- A JavaScript `<` on scores is false whenever the left side is at
least the right side (in particular whenever either is `NaN`). -/
theorem jsLtScoreB_eq_false {a b : JsNum} (h : scoreRealGe a b) :
    MemStorage.jsLtScoreB a b = false := by
  cases a with
  | none => cases b <;> rfl
  | some x =>
    cases b with
    | none => rfl
    | some y =>
      have hyx : y ≤ x := scoreRealGe_some_some.mp h
      simp [MemStorage.jsLtScoreB, not_lt.mpr hyx]

/-- Membership in the scored-chunk scan list. -/
theorem mem_embeddedChunks {s : MemStorage} {c : Chunk} {e : List JsNum} :
    (c, e) ∈ MemStorage.embeddedChunks s ↔
      c ∈ s.chunks ∧ c.embedding = some e := by
  constructor
  · intro h
    obtain ⟨a, ha, hfa⟩ := List.mem_filterMap.mp h
    obtain ⟨e0, he0, heq⟩ := Option.map_eq_some'.mp hfa
    obtain ⟨h1, h2⟩ := Prod.mk.injEq .. ▸ heq
    exact ⟨h1 ▸ ha, by rw [← h1, he0, h2]⟩
  · intro ⟨h1, h2⟩
    exact List.mem_filterMap.mpr ⟨c, h1, by rw [h2]; rfl⟩

/-- When every embedded chunk has a defined similarity with the query,
the scoring loop succeeds and produces exactly one entry per scanned
chunk, carrying that chunk's document id and similarity. -/
theorem searchScoresList_ok (q : List JsNum) :
    ∀ l : List (Chunk × List JsNum),
    (∀ ce ∈ l, ∃ r : ℝ,
      MemStorage.calculateCosineSimilarity q ce.2 = Except.ok (some r)) →
    ∃ out, MemStorage.searchScoresList q l = Except.ok out ∧
      (∀ sc ∈ out, ∃ ce ∈ l, sc.documentId = ce.1.documentId ∧
        MemStorage.calculateCosineSimilarity q ce.2 = Except.ok sc.score ∧
        ∃ x : ℝ, sc.score = some x) ∧
      (∀ ce ∈ l, ∃ sc ∈ out, sc.documentId = ce.1.documentId ∧
        MemStorage.calculateCosineSimilarity q ce.2 = Except.ok sc.score) := by
  intro l
  induction l with
  | nil =>
    intro _
    exact ⟨[], rfl, by simp, by simp⟩
  | cons ce rest ih =>
    intro h
    obtain ⟨r, hr⟩ := h ce (List.mem_cons_self ..)
    obtain ⟨out, hout, hfwd, hbwd⟩ :=
      ih (fun x hx => h x (List.mem_cons_of_mem _ hx))
    refine ⟨⟨ce.1.documentId, some r, ce.1.id⟩ :: out, ?_, ?_, ?_⟩
    · simp only [MemStorage.searchScoresList, hr, hout]
      rfl
    · intro sc hsc
      rcases List.mem_cons.mp hsc with h1 | h1
      · subst h1
        exact ⟨ce, List.mem_cons_self .., rfl, hr, r, rfl⟩
      · obtain ⟨ce2, hce2, h2, h3, h4⟩ := hfwd sc h1
        exact ⟨ce2, List.mem_cons_of_mem _ hce2, h2, h3, h4⟩
    · intro ce2 hce2
      rcases List.mem_cons.mp hce2 with h1 | h1
      · subst h1
        exact ⟨⟨ce2.1.documentId, some r, ce2.1.id⟩, List.mem_cons_self .., rfl, hr⟩
      · obtain ⟨sc, hsc, h2, h3⟩ := hbwd ce2 h1
        exact ⟨sc, List.mem_cons_of_mem _ hsc, h2, h3⟩

/-- When the map does not yet hold the entry's key, the dedup step
appends a fresh entry. -/
theorem dedupStep_absent {m : List DocScore} {r : ScoredChunk}
    (h : m.any (fun x => x.documentId == r.documentId) = false) :
    MemStorage.dedupStep m r = m ++ [⟨r.documentId, r.score⟩] := by
  simp [MemStorage.dedupStep, MemStorage.mapSet, h]

/-- When the map already holds the key with a score dominating the
entry, the dedup step leaves the map unchanged. -/
theorem dedupStep_present {m : List DocScore} {r : ScoredChunk}
    (h : m.any (fun x => x.documentId == r.documentId) = true)
    (hdom : ∀ d ∈ m, scoreRealGe d.score r.score) :
    MemStorage.dedupStep m r = m := by
  have hsome : (m.find? (fun x => x.documentId == r.documentId)).isSome := by
    rw [List.find?_isSome]
    exact List.any_eq_true.mp h
  obtain ⟨x0, hx0⟩ := Option.isSome_iff_exists.mp hsome
  have hx0mem : x0 ∈ m := List.mem_of_find?_eq_some hx0
  have hlt : MemStorage.jsLtScoreB x0.score r.score = false :=
    jsLtScoreB_eq_false (hdom x0 hx0mem)
  simp [MemStorage.dedupStep, h, hx0, hlt]

/-- Folding the dedup step over a descending score list preserves the
`uniqueResults` invariant: because the entries arrive in non-increasing
score order, the first entry of each document wins and the map only ever
appends. -/
theorem dedup_foldl_inv :
    ∀ (rest : List ScoredChunk) (m : List DocScore)
      (processed : List ScoredChunk),
    rest.Pairwise (fun a b => scoreRealGe a.score b.score) →
    (∀ d ∈ m, ∀ r ∈ rest, scoreRealGe d.score r.score) →
    DedupInv processed m →
    DedupInv (processed ++ rest) (rest.foldl MemStorage.dedupStep m) := by
  intro rest
  induction rest with
  | nil =>
    intro m processed _ _ inv
    simpa using inv
  | cons r rest2 ih =>
    intro m processed hpair hdom inv
    have hpair2 : rest2.Pairwise (fun a b => scoreRealGe a.score b.score) :=
      (List.pairwise_cons.mp hpair).2
    have hdomr : ∀ y ∈ rest2, scoreRealGe r.score y.score :=
      (List.pairwise_cons.mp hpair).1
    have hdomm : ∀ d ∈ m, scoreRealGe d.score r.score :=
      fun d hd => hdom d hd r (List.mem_cons_self ..)
    have hassoc : processed ++ r :: rest2 = (processed ++ [r]) ++ rest2 := by
      simp
    rw [List.foldl_cons, hassoc]
    cases hb : m.any (fun x => x.documentId == r.documentId) with
    | true =>
      have hstep : MemStorage.dedupStep m r = m := dedupStep_present hb hdomm
      rw [hstep]
      refine ih m (processed ++ [r]) hpair2
        (fun d hd y hy => hdom d hd y (List.mem_cons_of_mem _ hy)) ?_
      refine ⟨inv.keys_nodup, inv.sorted, ?_, ?_, ?_⟩
      · intro d hd
        obtain ⟨r0, hr0, h1, h2⟩ := inv.attained d hd
        exact ⟨r0, List.mem_append_left _ hr0, h1, h2⟩
      · intro d hd r0 hr0 hid
        rcases List.mem_append.mp hr0 with h1 | h1
        · exact inv.ub d hd r0 h1 hid
        · have : r0 = r := List.mem_singleton.mp h1
          subst this
          exact hdomm d hd
      · intro r0 hr0
        rcases List.mem_append.mp hr0 with h1 | h1
        · exact inv.complete r0 h1
        · have : r0 = r := List.mem_singleton.mp h1
          subst this
          obtain ⟨x, hx, hpx⟩ := List.any_eq_true.mp hb
          exact ⟨x, hx, beq_iff_eq.mp hpx⟩
    | false =>
      have habs : ∀ x ∈ m, x.documentId ≠ r.documentId := by
        intro x hx
        have := List.any_eq_false.mp hb x hx
        simpa using this
      have hstep : MemStorage.dedupStep m r =
          m ++ [⟨r.documentId, r.score⟩] := dedupStep_absent hb
      rw [hstep]
      refine ih _ (processed ++ [r]) hpair2 ?_ ?_
      · intro d hd y hy
        rcases List.mem_append.mp hd with h1 | h1
        · exact hdom d h1 y (List.mem_cons_of_mem _ hy)
        · have : d = ⟨r.documentId, r.score⟩ := List.mem_singleton.mp h1
          subst this
          exact hdomr y hy
      · refine ⟨?_, ?_, ?_, ?_, ?_⟩
        · rw [List.map_append]
          refine List.Nodup.append inv.keys_nodup (by simp) ?_
          intro a ha ha2
          obtain ⟨d, hd, hda⟩ := List.mem_map.mp ha
          have : a = r.documentId := by simpa using ha2
          exact habs d hd (hda.trans this)
        · rw [List.pairwise_append]
          refine ⟨inv.sorted, by simp, ?_⟩
          intro a ha b hb2
          have : b = ⟨r.documentId, r.score⟩ := List.mem_singleton.mp hb2
          subst this
          exact hdomm a ha
        · intro d hd
          rcases List.mem_append.mp hd with h1 | h1
          · obtain ⟨r0, hr0, ha, hs⟩ := inv.attained d h1
            exact ⟨r0, List.mem_append_left _ hr0, ha, hs⟩
          · have : d = ⟨r.documentId, r.score⟩ := List.mem_singleton.mp h1
            subst this
            exact ⟨r, List.mem_append_right _ (List.mem_singleton.mpr rfl),
              rfl, rfl⟩
        · intro d hd r0 hr0 hid
          rcases List.mem_append.mp hd with h1 | h1
          · rcases List.mem_append.mp hr0 with h2 | h2
            · exact inv.ub d h1 r0 h2 hid
            · have : r0 = r := List.mem_singleton.mp h2
              subst this
              exact hdomm d h1
          · have hdnew : d = ⟨r.documentId, r.score⟩ := List.mem_singleton.mp h1
            subst hdnew
            rcases List.mem_append.mp hr0 with h2 | h2
            · obtain ⟨d2, hd2, hid2⟩ := inv.complete r0 h2
              exact absurd (hid2.trans hid) (habs d2 hd2)
            · have : r0 = r := List.mem_singleton.mp h2
              subst this
              exact scoreRealGe_refl _
        · intro r0 hr0
          rcases List.mem_append.mp hr0 with h1 | h1
          · obtain ⟨d, hd, hid⟩ := inv.complete r0 h1
            exact ⟨d, List.mem_append_left _ hd, hid⟩
          · have hr0r : r0 = r := List.mem_singleton.mp h1
            refine ⟨⟨r.documentId, r.score⟩,
              List.mem_append_right _ (List.mem_singleton.mpr rfl), ?_⟩
            rw [hr0r]

/-- C2 (amended): provided every stored chunk embedding has a defined
(non-`NaN`) cosine similarity with the query vector — which requires the
embedding to have the query's length and rules out zero-magnitude and
`NaN` vectors — `searchDocuments(q, k)` succeeds and returns at most `k`
entries, with no document identifier appearing twice, sorted by
non-increasing score, where each returned document's score is the
maximum cosine similarity over that document's chunks that have a
non-absent embedding (the score is attained by one such chunk and
dominates all of them). -/
theorem searchDocuments_ranked (s : MemStorage) (q : List JsNum) (k : Nat)
    (hdef : ∀ c ∈ s.chunks, ∀ e, c.embedding = some e →
      ∃ r : ℝ, MemStorage.calculateCosineSimilarity q e = Except.ok (some r)) :
    ∃ out : List DocScore,
      MemStorage.searchDocuments s q k = Except.ok out ∧
      out.length ≤ k ∧
      (out.map DocScore.documentId).Nodup ∧
      out.Pairwise (fun a b => scoreRealGe a.score b.score) ∧
      (∀ d ∈ out, ∃ c ∈ s.chunks, ∃ e, c.embedding = some e ∧
        c.documentId = d.documentId ∧
        MemStorage.calculateCosineSimilarity q e = Except.ok d.score ∧
        ∃ x : ℝ, d.score = some x) ∧
      (∀ d ∈ out, ∀ c ∈ s.chunks, ∀ e, c.embedding = some e →
        c.documentId = d.documentId →
        ∀ r : ℝ,
          MemStorage.calculateCosineSimilarity q e = Except.ok (some r) →
          ∃ x : ℝ, d.score = some x ∧ r ≤ x) := by
  have hdef2 : ∀ ce ∈ MemStorage.embeddedChunks s, ∃ r : ℝ,
      MemStorage.calculateCosineSimilarity q ce.2 = Except.ok (some r) := by
    intro ce hce
    obtain ⟨h1, h2⟩ := mem_embeddedChunks.mp hce
    exact hdef ce.1 h1 ce.2 h2
  obtain ⟨results, hres, hfwd, hbwd⟩ :=
    searchScoresList_ok q (MemStorage.embeddedChunks s) hdef2
  set sorted := results.mergeSort MemStorage.scoreDescB with hsorteddef
  have hperm : sorted.Perm results := List.mergeSort_perm results _
  have hsorted : sorted.Pairwise (fun a b => scoreRealGe a.score b.score) :=
    (List.sorted_mergeSort scoreDescB_trans scoreDescB_total results).imp
      (fun h => scoreDescB_eq_true.mp h)
  have inv0 : DedupInv [] [] := by
    refine ⟨by simp, List.Pairwise.nil, ?_, ?_, ?_⟩
    · intro d hd; exact absurd hd (List.not_mem_nil d)
    · intro d hd; exact absurd hd (List.not_mem_nil d)
    · intro r0 hr0; exact absurd hr0 (List.not_mem_nil r0)
  have inv : DedupInv sorted (sorted.foldl MemStorage.dedupStep []) := by
    have := dedup_foldl_inv sorted [] [] hsorted
      (by intro d hd; exact absurd hd (List.not_mem_nil d)) inv0
    simpa using this
  set final := sorted.foldl MemStorage.dedupStep [] with hfinaldef
  refine ⟨final.take k, ?_, ?_, ?_, ?_, ?_, ?_⟩
  · unfold MemStorage.searchDocuments
    rw [hres]
    rfl
  · rw [List.length_take]
    exact min_le_left _ _
  · rw [List.map_take]
    exact inv.keys_nodup.sublist (List.take_sublist k _)
  · exact inv.sorted.sublist (List.take_sublist k final)
  · intro d hd
    have hdfin : d ∈ final := (List.take_sublist k final).subset hd
    obtain ⟨r0, hr0, hid, hscore⟩ := inv.attained d hdfin
    have hr0res : r0 ∈ results := hperm.mem_iff.mp hr0
    obtain ⟨ce, hce, h1, h2, h3⟩ := hfwd r0 hr0res
    obtain ⟨hc, he⟩ := mem_embeddedChunks.mp hce
    exact ⟨ce.1, hc, ce.2, he, by rw [← h1, hid], by rw [← hscore, h2],
      by rw [← hscore]; exact h3⟩
  · intro d hd c hc e he hid r hr
    have hdfin : d ∈ final := (List.take_sublist k final).subset hd
    obtain ⟨sc, hsc, hscid, hsccalc⟩ :=
      hbwd (c, e) (mem_embeddedChunks.mpr ⟨hc, he⟩)
    have hscscore : sc.score = some r := by
      have := hsccalc.symm.trans hr
      exact (Except.ok.inj this)
    have hscsorted : sc ∈ sorted := hperm.mem_iff.mpr hsc
    have hge : scoreRealGe d.score sc.score :=
      inv.ub d hdfin sc hscsorted (by rw [hscid, hid])
    obtain ⟨r0, hr0, hid0, hscore0⟩ := inv.attained d hdfin
    have hr0res : r0 ∈ results := hperm.mem_iff.mp hr0
    obtain ⟨ce2, hce2, g1, g2, x, g3⟩ := hfwd r0 hr0res
    refine ⟨x, by rw [← hscore0, g3], ?_⟩
    have : scoreRealGe (some x) (some r) := by
      rw [← g3, hscore0, ← hscscore]
      exact hge
    exact scoreRealGe_some_some.mp this

/-- The defined-similarity hypothesis of `searchDocuments_ranked` holds
at the concrete state `searchWitnessStorage` and query `[1, 0]`. -/
theorem searchWitnessStorage_scores_defined :
    ∀ c ∈ searchWitnessStorage.chunks, ∀ e, c.embedding = some e →
      ∃ r : ℝ, MemStorage.calculateCosineSimilarity [some 1, some 0] e =
        Except.ok (some r) := by
  intro c hc e he
  simp only [searchWitnessStorage, List.mem_cons, List.not_mem_nil,
    or_false] at hc
  rcases hc with rfl | rfl | rfl
  · simp only [Option.some.injEq] at he
    subst he
    refine ⟨1, ?_⟩
    norm_num [MemStorage.calculateCosineSimilarity, dotProduct, sumSquares,
      jsMul, jsAdd, jsSqrt, jsDiv, Real.sqrt_one]
  · simp only [Option.some.injEq] at he
    subst he
    refine ⟨0, ?_⟩
    norm_num [MemStorage.calculateCosineSimilarity, dotProduct, sumSquares,
      jsMul, jsAdd, jsSqrt, jsDiv, Real.sqrt_one]
  · simp at he

/-- C2 witness: the amended search theorem applied at the concrete state
`searchWitnessStorage`, query `[1, 0]` and limit 10, with its
defined-similarity hypothesis discharged there. -/
theorem searchDocuments_ranked_witness :
    (∀ c ∈ searchWitnessStorage.chunks, ∀ e, c.embedding = some e →
      ∃ r : ℝ, MemStorage.calculateCosineSimilarity [some 1, some 0] e =
        Except.ok (some r)) ∧
    (∃ out : List DocScore,
      MemStorage.searchDocuments searchWitnessStorage [some 1, some 0] 10 =
        Except.ok out ∧
      out.length ≤ 10 ∧
      (out.map DocScore.documentId).Nodup ∧
      out.Pairwise (fun a b => scoreRealGe a.score b.score) ∧
      (∀ d ∈ out, ∃ c ∈ searchWitnessStorage.chunks, ∃ e,
        c.embedding = some e ∧
        c.documentId = d.documentId ∧
        MemStorage.calculateCosineSimilarity [some 1, some 0] e =
          Except.ok d.score ∧
        ∃ x : ℝ, d.score = some x) ∧
      (∀ d ∈ out, ∀ c ∈ searchWitnessStorage.chunks, ∀ e,
        c.embedding = some e →
        c.documentId = d.documentId →
        ∀ r : ℝ,
          MemStorage.calculateCosineSimilarity [some 1, some 0] e =
            Except.ok (some r) →
          ∃ x : ℝ, d.score = some x ∧ r ≤ x)) :=
  ⟨searchWitnessStorage_scores_defined,
    searchDocuments_ranked searchWitnessStorage [some 1, some 0] 10
      searchWitnessStorage_scores_defined⟩

/-- Whenever the body of `findRelatedDocuments` completes normally, its
result has at most `limit` documents and never contains the source
document identifier. -/
theorem findRelatedDocumentsAux_spec (s : MemStorage)
    (documentId limit : Nat) :
    ∀ docs, MemStorage.findRelatedDocumentsAux s documentId limit =
        Except.ok docs →
      docs.length ≤ limit ∧ ∀ d ∈ docs, d.id ≠ documentId := by
  intro docs h
  unfold MemStorage.findRelatedDocumentsAux at h
  split at h
  · -- unknown document: `return []`
    obtain rfl := Except.ok.inj h
    exact ⟨Nat.zero_le _, by intro d hd; exact absurd hd (List.not_mem_nil d)⟩
  · dsimp only at h
    split at h
    · -- no chunks
      obtain rfl := Except.ok.inj h
      exact ⟨Nat.zero_le _, by intro d hd; exact absurd hd (List.not_mem_nil d)⟩
    · split at h
      · -- no valid embeddings
        obtain rfl := Except.ok.inj h
        exact ⟨Nat.zero_le _,
          by intro d hd; exact absurd hd (List.not_mem_nil d)⟩
      · -- main path: case on the inner search
        split at h
        · exact absurd h (by simp)
        · obtain rfl := Except.ok.inj h
          constructor
          · calc (List.filterMap _ _).length
                ≤ (List.take limit _).length := List.length_filterMap_le _ _
              _ ≤ limit := by
                  rw [List.length_take]
                  exact min_le_left _ _
          · intro d hd
            obtain ⟨r, hr, hget⟩ := List.mem_filterMap.mp hd
            have hrfilter :
                r ∈ List.filter (fun r => r.documentId != documentId) _ :=
              (List.take_sublist _ _).subset hr
            have hrid : r.documentId ≠ documentId := by
              have := (List.mem_filter.mp hrfilter).2
              simpa using this
            unfold MemStorage.getDocument at hget
            have hdid := List.find?_some hget
            rw [beq_iff_eq] at hdid
            rw [hdid]
            exact hrid

/-- C9: for every state, document identifier and limit,
`findRelatedDocuments` returns at most `limit` documents and never
includes the queried document itself (on every path, including the
error-absorbing `catch`). -/
theorem findRelatedDocuments_le_limit_and_excludes_self
    (s : MemStorage) (documentId limit : Nat) :
    (MemStorage.findRelatedDocuments s documentId limit).length ≤ limit ∧
    ∀ d ∈ MemStorage.findRelatedDocuments s documentId limit,
      d.id ≠ documentId := by
  unfold MemStorage.findRelatedDocuments
  cases haux : MemStorage.findRelatedDocumentsAux s documentId limit with
  | ok docs =>
    simpa using findRelatedDocumentsAux_spec s documentId limit docs haux
  | error e =>
    exact ⟨Nat.zero_le _, by intro d hd; exact absurd hd (List.not_mem_nil d)⟩

/-- C10: whatever the outcome of the history-recording step, the search
orchestrator returns the same ranked, annotated result list it returns
when history recording succeeds; the failure is confined by the
dedicated `try`/`catch`. -/
theorem searchDocuments_history_failure_nonfatal (s : MemStorage)
    (queryEmbedding : List JsNum) (query : String) (e : String) :
    DocumentProcessor.searchDocuments s queryEmbedding query
        (Except.error e) =
      DocumentProcessor.searchDocuments s queryEmbedding query
        (Except.ok ()) := by
  unfold DocumentProcessor.searchDocuments
  cases DocumentProcessor.searchDocumentsCore s queryEmbedding query <;> rfl

/-- C3: (i) with the quota flag set, every `generateEmbedding` call
returns the fallback vector without invoking the provider and keeps the
flag set; (ii) a provider failure matching the quota test sets the flag;
(iii) a provider failure not matching the quota test falls back for that
call only and leaves the flag clear; (iv) a latched process stays
latched across any sequence of calls; (v) in a latched process every
call of the sequence returns the fallback vector of its text without
invoking the provider. -/
theorem generateEmbedding_quota_latch :
    (∀ (p : OpenAIApi.ProviderOutcome) (t : String),
      OpenAIApi.generateEmbedding p true t =
        ⟨OpenAIApi.generateFakeEmbedding t, true, false⟩) ∧
    (∀ (code : Option String) (status : Option Nat) (t : String),
      OpenAIApi.isQuotaError code status = true →
      OpenAIApi.generateEmbedding
          (OpenAIApi.ProviderOutcome.failure code status) false t =
        ⟨OpenAIApi.generateFakeEmbedding t, true, true⟩) ∧
    (∀ (code : Option String) (status : Option Nat) (t : String),
      OpenAIApi.isQuotaError code status = false →
      OpenAIApi.generateEmbedding
          (OpenAIApi.ProviderOutcome.failure code status) false t =
        ⟨OpenAIApi.generateFakeEmbedding t, false, true⟩) ∧
    (∀ calls : List (OpenAIApi.ProviderOutcome × String),
      OpenAIApi.runEmbedCalls calls true =
        (calls.map (fun pt =>
          ⟨OpenAIApi.generateFakeEmbedding pt.2, true, false⟩), true)) := by
  refine ⟨?_, ?_, ?_, ?_⟩
  · intro p t
    rfl
  · intro code status t h
    simp [OpenAIApi.generateEmbedding, h]
  · intro code status t h
    simp [OpenAIApi.generateEmbedding, h]
  · intro calls
    induction calls with
    | nil => rfl
    | cons pt rest ih =>
      obtain ⟨p, t⟩ := pt
      simp [OpenAIApi.runEmbedCalls, OpenAIApi.generateEmbedding, ih]

/-- C3 witness: the latch theorem applied at the quota error
`insufficient_quota`, at the non-quota error status 500, and at a
two-call latched trace. -/
theorem generateEmbedding_quota_latch_witness :
    OpenAIApi.isQuotaError (some "insufficient_quota") none = true ∧
    OpenAIApi.isQuotaError none (some 500) = false ∧
    OpenAIApi.generateEmbedding
        (OpenAIApi.ProviderOutcome.failure (some "insufficient_quota") none)
        false "hello" =
      ⟨OpenAIApi.generateFakeEmbedding "hello", true, true⟩ ∧
    OpenAIApi.generateEmbedding
        (OpenAIApi.ProviderOutcome.failure none (some 500)) false "hello" =
      ⟨OpenAIApi.generateFakeEmbedding "hello", false, true⟩ ∧
    OpenAIApi.runEmbedCalls
        [(OpenAIApi.ProviderOutcome.success [some 1], "a"),
          (OpenAIApi.ProviderOutcome.failure none (some 500), "b")] true =
      ([⟨OpenAIApi.generateFakeEmbedding "a", true, false⟩,
        ⟨OpenAIApi.generateFakeEmbedding "b", true, false⟩], true) :=
  ⟨by decide, by decide,
    generateEmbedding_quota_latch.2.1 (some "insufficient_quota") none
      "hello" (by decide),
    generateEmbedding_quota_latch.2.2.1 none (some 500) "hello" (by decide),
    generateEmbedding_quota_latch.2.2.2
      [(OpenAIApi.ProviderOutcome.success [some 1], "a"),
        (OpenAIApi.ProviderOutcome.failure none (some 500), "b")]⟩

/-- C5 (amended): byte-identical text gives bit-identical fallback
vectors for the `openai` module's `generateFakeEmbedding` (which hashes
the raw text), and the `generateAI` generator — whose digest is taken of
the lowercased text — yields identical vectors for any two texts that
agree after lowercasing. -/
theorem fallback_embedding_deterministic :
    (∀ t1 t2 : String, t1 = t2 →
      OpenAIApi.generateFakeEmbedding t1 =
        OpenAIApi.generateFakeEmbedding t2) ∧
    (∀ (sha256hex : String → String) (t1 t2 : String),
      jsToLowerCase t1 = jsToLowerCase t2 →
      GenerateAI.generateEmbedding sha256hex t1 =
        GenerateAI.generateEmbedding sha256hex t2) := by
  constructor
  · intro t1 t2 h
    rw [h]
  · intro sha256hex t1 t2 h
    unfold GenerateAI.generateEmbedding
    rw [h]

/-- C5 witness: the determinism theorem applied to the byte-identical
pair `"Text"`, `"Text"` and to the case-variant pair `"AbC"`, `"aBc"`,
whose lowercasings agree. -/
theorem fallback_embedding_deterministic_witness :
    ("Text" : String) = "Text" ∧
    jsToLowerCase "AbC" = jsToLowerCase "aBc" ∧
    OpenAIApi.generateFakeEmbedding "Text" =
      OpenAIApi.generateFakeEmbedding "Text" ∧
    GenerateAI.generateEmbedding shaConst "AbC" =
      GenerateAI.generateEmbedding shaConst "aBc" :=
  ⟨rfl, by decide,
    fallback_embedding_deterministic.1 "Text" "Text" rfl,
    fallback_embedding_deterministic.2 shaConst "AbC" "aBc" (by decide)⟩

/-- The `generateAI` generator always emits 128 components. -/
theorem generateAI_embedding_length (sha256hex : String → String)
    (t : String) : (GenerateAI.generateEmbedding sha256hex t).length = 128 := by
  unfold GenerateAI.generateEmbedding jsNormalize
  simp only [List.length_map, List.length_range]

/-- The `openai` fallback generator always emits 1536 components. -/
theorem generateFakeEmbedding_length (t : String) :
    (OpenAIApi.generateFakeEmbedding t).length = 1536 := by
  unfold OpenAIApi.generateFakeEmbedding jsNormalize
  simp only [List.length_map, List.length_range]

/-- The helper `MemStorage.calculateCosineSimilarity` throws exactly its length
error on mismatched vectors. -/
theorem memCosine_length_mismatch {v1 v2 : List JsNum}
    (h : v1.length ≠ v2.length) :
    MemStorage.calculateCosineSimilarity v1 v2 =
      Except.error "Vectors must have the same length" := by
  unfold MemStorage.calculateCosineSimilarity
  rw [if_pos h]

/-- The only error `MemStorage.calculateCosineSimilarity` can throw is
its length error. -/
theorem memCosine_error_msg {v1 v2 : List JsNum} {e : String}
    (h : MemStorage.calculateCosineSimilarity v1 v2 = Except.error e) :
    e = "Vectors must have the same length" := by
  unfold MemStorage.calculateCosineSimilarity at h
  split at h
  · exact (Except.error.inj h).symm
  · exact absurd h (by simp)

/-- A single stored embedding of the wrong length makes the whole
scoring loop throw the length error. -/
theorem searchScoresList_error (q : List JsNum) :
    ∀ l : List (Chunk × List JsNum),
    (∃ ce ∈ l, ce.2.length ≠ q.length) →
    MemStorage.searchScoresList q l =
      Except.error "Vectors must have the same length" := by
  intro l
  induction l with
  | nil =>
    intro ⟨ce, hce, _⟩
    exact absurd hce (List.not_mem_nil ce)
  | cons ce rest ih =>
    intro ⟨ce0, hce0, hlen⟩
    rcases List.mem_cons.mp hce0 with rfl | hrest
    · have herr := @memCosine_length_mismatch q ce0.2
        (fun h => hlen (h.symm))
      unfold MemStorage.searchScoresList
      rw [herr]
      rfl
    · cases hc : MemStorage.calculateCosineSimilarity q ce.2 with
      | error e =>
        have := memCosine_error_msg hc
        subst this
        unfold MemStorage.searchScoresList
        rw [hc]
        rfl
      | ok v =>
        have htail := ih ⟨ce0, hrest, hlen⟩
        unfold MemStorage.searchScoresList
        rw [hc, htail]
        rfl

/-- A single stored embedding of the wrong length makes
`searchDocuments` throw the length error. -/
theorem searchDocuments_error_of_mismatch (s : MemStorage)
    (q : List JsNum) (k : Nat)
    (h : ∃ c ∈ s.chunks, ∃ e, c.embedding = some e ∧ e.length ≠ q.length) :
    MemStorage.searchDocuments s q k =
      Except.error "Vectors must have the same length" := by
  obtain ⟨c, hc, e, he, hlen⟩ := h
  have hmem : (c, e) ∈ MemStorage.embeddedChunks s :=
    mem_embeddedChunks.mpr ⟨hc, he⟩
  have herr := searchScoresList_error q _ ⟨(c, e), hmem, hlen⟩
  unfold MemStorage.searchDocuments
  rw [herr]
  rfl

/-- C7 (amended): the `generateAI` generator always emits 128-component
vectors while the `openai` fallback always emits 1536-component ones;
`MemStorage.calculateCosineSimilarity` throws on any length mismatch, so
a 128-component query vector scored through `MemStorage.searchDocuments`
(the `/api/answer` route's all-documents branch) against a store
containing an `openai`-embedded chunk always raises the length error;
the route's `documentIds` branch instead scores inline over the query's
own indices and completes without raising. -/
theorem embedding_dimension_mismatch :
    (∀ (sha256hex : String → String) (t : String),
      (GenerateAI.generateEmbedding sha256hex t).length = 128) ∧
    (∀ t : String, (OpenAIApi.generateFakeEmbedding t).length = 1536) ∧
    (∀ v1 v2 : List JsNum, v1.length ≠ v2.length →
      MemStorage.calculateCosineSimilarity v1 v2 =
        Except.error "Vectors must have the same length") ∧
    (∀ (s : MemStorage) (q : List JsNum) (k : Nat), q.length = 128 →
      (∃ c ∈ s.chunks, ∃ e, c.embedding = some e ∧ e.length = 1536) →
      MemStorage.searchDocuments s q k =
        Except.error "Vectors must have the same length") ∧
    (∀ queryEmbedding chunkEmbedding : List JsNum,
      Routes.answerChunkScoreE queryEmbedding chunkEmbedding =
        Except.ok (Routes.answerChunkScore queryEmbedding chunkEmbedding)) := by
  refine ⟨generateAI_embedding_length, generateFakeEmbedding_length,
    fun v1 v2 h => memCosine_length_mismatch h, ?_, fun q e => rfl⟩
  intro s q k hq ⟨c, hc, e, he, hlen⟩
  refine searchDocuments_error_of_mismatch s q k ⟨c, hc, e, he, ?_⟩
  rw [hlen, hq]
  decide

/-- C7 counterexample (to the claim's final "always raises an error"
clause): the `/api/answer` route's inline scoring of a 128-component
`generateAI` query vector against a 1536-component `openai`-embedded
chunk completes normally with a score instead of raising. -/
theorem answer_inline_scoring_completes :
    (GenerateAI.generateEmbedding shaConst "query").length = 128 ∧
    (OpenAIApi.generateFakeEmbedding "document text").length = 1536 ∧
    Routes.answerChunkScoreE (GenerateAI.generateEmbedding shaConst "query")
        (OpenAIApi.generateFakeEmbedding "document text") =
      Except.ok (Routes.answerChunkScore
        (GenerateAI.generateEmbedding shaConst "query")
        (OpenAIApi.generateFakeEmbedding "document text")) :=
  ⟨generateAI_embedding_length shaConst "query",
    generateFakeEmbedding_length "document text", rfl⟩

/-- C7 witness: the dimension theorem applied at the digest stand-in
`shaConst`, the query text `"query"`, the state
`openAIEmbeddedStorage` holding one `openai`-embedded chunk, and
mismatched concrete vectors. -/
theorem embedding_dimension_mismatch_witness :
    ((GenerateAI.generateEmbedding shaConst "query").length = 128 ∧
      (∃ c ∈ openAIEmbeddedStorage.chunks, ∃ e,
        c.embedding = some e ∧ e.length = 1536)) ∧
    ([some 1, some 0] : List JsNum).length ≠ ([some 1] : List JsNum).length ∧
    MemStorage.calculateCosineSimilarity [some 1, some 0] [some 1] =
      Except.error "Vectors must have the same length" ∧
    MemStorage.searchDocuments openAIEmbeddedStorage
        (GenerateAI.generateEmbedding shaConst "query") 5 =
      Except.error "Vectors must have the same length" := by
  have h128 : (GenerateAI.generateEmbedding shaConst "query").length = 128 :=
    generateAI_embedding_length shaConst "query"
  have hex : ∃ c ∈ openAIEmbeddedStorage.chunks, ∃ e,
      c.embedding = some e ∧ e.length = 1536 :=
    ⟨⟨1, 1, 0, "text", some (OpenAIApi.generateFakeEmbedding "document text")⟩,
      by simp [openAIEmbeddedStorage],
      OpenAIApi.generateFakeEmbedding "document text", rfl,
      generateFakeEmbedding_length "document text"⟩
  exact ⟨⟨h128, hex⟩, by decide,
    embedding_dimension_mismatch.2.2.1 [some 1, some 0] [some 1] (by decide),
    embedding_dimension_mismatch.2.2.2.1 openAIEmbeddedStorage
      (GenerateAI.generateEmbedding shaConst "query") 5 h128 hex⟩

/-- Invariant of the chunk accumulation loop: if the pending chunk is
empty, at most `maxChunkSize + 1` characters long (the greedy check
ignores the two-character join), or a whole input paragraph, then every
emitted chunk is non-empty and either at most `maxChunkSize + 1`
characters long or a whole input paragraph. -/
theorem splitChunksLoop_spec (maxChunkSize : Nat) (origParas : List String) :
    ∀ (paras : List String) (cur : String),
    (∀ p ∈ paras, p ∈ origParas) →
    (cur = "" ∨ cur.length ≤ maxChunkSize + 1 ∨ cur ∈ origParas) →
    ∀ chunk ∈ DocumentProcessor.splitChunksLoop maxChunkSize paras cur,
      chunk ≠ "" ∧ (chunk.length ≤ maxChunkSize + 1 ∨ chunk ∈ origParas) := by
  intro paras
  induction paras with
  | nil =>
    intro cur _ hcur chunk hchunk
    unfold DocumentProcessor.splitChunksLoop at hchunk
    split at hchunk
    · exact absurd hchunk (List.not_mem_nil chunk)
    · rename_i hne
      obtain rfl : chunk = cur := List.mem_singleton.mp hchunk
      constructor
      · intro h0
        rw [h0] at hne
        exact hne rfl
      · rcases hcur with h | h
        · rw [h] at hne
          exact absurd rfl hne
        · exact h
  | cons paragraph rest ih =>
    intro cur hparas hcur chunk hchunk
    have hpara : paragraph ∈ origParas := hparas paragraph (List.mem_cons_self ..)
    have hrest : ∀ p ∈ rest, p ∈ origParas :=
      fun p hp => hparas p (List.mem_cons_of_mem _ hp)
    unfold DocumentProcessor.splitChunksLoop at hchunk
    split at hchunk
    · -- append branch
      rename_i hlt
      split at hchunk
      · exact ih _ hrest (Or.inr (Or.inr hpara)) chunk hchunk
      · rename_i h0
        refine ih _ hrest (Or.inr (Or.inl ?_)) chunk hchunk
        have hlen : (cur ++ "\n\n" ++ paragraph).length =
            cur.length + 2 + paragraph.length := by
          rw [String.length_append, String.length_append]
          rfl
        rw [hlen]
        omega
    · -- flush branch
      split at hchunk
      · exact ih _ hrest (Or.inr (Or.inr hpara)) chunk hchunk
      · rename_i h0
        rcases List.mem_cons.mp hchunk with rfl | hmem
        · constructor
          · intro hempty
            rw [hempty] at h0
            exact h0 rfl
          · rcases hcur with h | h
            · rw [h] at h0
              exact absurd rfl h0
            · exact h
        · exact ih _ hrest (Or.inr (Or.inr hpara)) chunk hmem

/-- C4 (amended): every chunk produced by `splitIntoChunks(text, 1000)`
is non-empty, and each chunk either is at most 1001 characters long
(1000 + 1: the greedy length check omits the two-character paragraph
join) or consists of a single input paragraph (emitted whole even when
oversized). -/
theorem splitIntoChunks_nonempty_bounded (text : String) :
    ∀ chunk ∈ DocumentProcessor.splitIntoChunks text 1000,
      chunk ≠ "" ∧ (chunk.length ≤ 1001 ∨
        chunk ∈ DocumentProcessor.jsSplitParagraphs text) := by
  intro chunk hchunk
  exact splitChunksLoop_spec 1000 (DocumentProcessor.jsSplitParagraphs text)
    (DocumentProcessor.jsSplitParagraphs text) "" (fun p hp => hp)
    (Or.inl rfl) chunk hchunk

/-- C4 witness: the bound theorem applied to the two-paragraph text
`"hello\n\nworld"`, which yields itself as single chunk. -/
theorem splitIntoChunks_nonempty_bounded_witness :
    "hello\n\nworld" ∈ DocumentProcessor.splitIntoChunks "hello\n\nworld" 1000 ∧
    ("hello\n\nworld" ≠ "" ∧ (("hello\n\nworld" : String).length ≤ 1001 ∨
      "hello\n\nworld" ∈ DocumentProcessor.jsSplitParagraphs "hello\n\nworld")) :=
  ⟨by decide, splitIntoChunks_nonempty_bounded "hello\n\nworld"
    "hello\n\nworld" (by decide)⟩

/-- C4 counterexample: on `oversizedText` ("a", blank line, 998 "b"s)
the chunker emits one chunk of 1001 characters that is not a single
input paragraph, refuting the claimed 1000-character bound. -/
theorem splitIntoChunks_exceeds_maximum :
    oversizedText ∈ DocumentProcessor.splitIntoChunks oversizedText 1000 ∧
    1000 < oversizedText.length ∧
    oversizedText ∉ DocumentProcessor.jsSplitParagraphs oversizedText := by
  set_option maxRecDepth 8000 in
  refine ⟨?_, ?_, ?_⟩ <;> decide

/-- Defined addition evaluates componentwise. -/
theorem jsAdd_some (x y : ℝ) : jsAdd (some x) (some y) = some (x + y) := rfl

/-- Defined multiplication evaluates componentwise. -/
theorem jsMul_some (x y : ℝ) : jsMul (some x) (some y) = some (x * y) := rfl

/-- Square root of a defined number, before the sign test. -/
theorem jsSqrt_some (x : ℝ) :
    jsSqrt (some x) = if x < 0 then none else some (Real.sqrt x) := rfl

/-- Division of defined numbers, before the zero test. -/
theorem jsDiv_some (x y : ℝ) :
    jsDiv (some x) (some y) = if y = 0 then none else some (x / y) := rfl

/-- The sum-of-squares accumulator over a list of defined numbers is the
real sum of squares, offset by the initial accumulator. -/
theorem sumSquares_foldl_some {α : Type} (f : α → ℝ) :
    ∀ (l : List α) (x : ℝ),
    (l.map (fun a => some (f a))).foldl
        (fun sum val => jsAdd sum (jsMul val val)) (some x) =
      some (x + ((l.map (fun a => f a * f a)).sum)) := by
  intro l
  induction l with
  | nil =>
    intro x
    simp
  | cons a l ih =>
    intro x
    rw [List.map_cons, List.foldl_cons, jsMul_some, jsAdd_some, ih,
      List.map_cons, List.sum_cons]
    congr 1
    ring

/-- Value of `sumSquares` over a list of defined numbers. -/
theorem sumSquares_map_some {α : Type} (f : α → ℝ) (l : List α) :
    sumSquares (l.map (fun a => some (f a))) =
      some ((l.map (fun a => f a * f a)).sum) := by
  unfold sumSquares
  rw [sumSquares_foldl_some]
  rw [zero_add]

/-- The values `sin x` and `sin 2x` cannot both be `-1`. -/
theorem sin_sin_double_ne_neg_one (x : ℝ) :
    ¬(Real.sin x = -1 ∧ Real.sin (2 * x) = -1) := by
  intro ⟨h1, h2⟩
  have hsq := Real.sin_sq_add_cos_sq x
  rw [h1] at hsq
  have hcossq : Real.cos x ^ 2 = 0 := by nlinarith
  have hcos : Real.cos x = 0 := sq_eq_zero_iff.mp hcossq
  rw [Real.sin_two_mul, h1, hcos] at h2
  norm_num at h2

/-- The pre-normalization `generateFakeEmbedding` vector has strictly
positive sum of squares: its first two components cannot both vanish,
because that would force `sin h = sin 2h = -1`. -/
theorem fake_raw_sum_pos (h : ℝ) :
    0 < ((List.range 1536).map
      (fun i : Nat => (Real.sin (h * ((i : ℝ) + 1)) / 2 + 0.5) *
        (Real.sin (h * ((i : ℝ) + 1)) / 2 + 0.5))).sum := by
  have hnonneg : ∀ x ∈ (List.range 1536).map
      (fun i : Nat => (Real.sin (h * ((i : ℝ) + 1)) / 2 + 0.5) *
        (Real.sin (h * ((i : ℝ) + 1)) / 2 + 0.5)), 0 ≤ x := by
    intro x hx
    obtain ⟨i, _, rfl⟩ := List.mem_map.mp hx
    exact mul_self_nonneg _
  have hne : Real.sin (h * (((0 : Nat) : ℝ) + 1)) / 2 + 0.5 ≠ 0 ∨
      Real.sin (h * (((1 : Nat) : ℝ) + 1)) / 2 + 0.5 ≠ 0 := by
    by_contra hcon
    push_neg at hcon
    obtain ⟨h0, h1⟩ := hcon
    have hs0 : Real.sin h = -1 := by
      have he : h * (((0 : Nat) : ℝ) + 1) = h := by norm_num
      rw [he] at h0
      linarith
    have hs1 : Real.sin (2 * h) = -1 := by
      have he : h * (((1 : Nat) : ℝ) + 1) = 2 * h := by push_cast; ring
      rw [he] at h1
      linarith
    exact sin_sin_double_ne_neg_one h ⟨hs0, hs1⟩
  have hzero : (0 : Nat) ∈ List.range 1536 := List.mem_range.mpr (by norm_num)
  have hone : (1 : Nat) ∈ List.range 1536 := List.mem_range.mpr (by norm_num)
  rcases hne with hn | hn
  · have hpos := mul_self_pos.mpr hn
    refine lt_of_lt_of_le hpos (List.single_le_sum hnonneg _ ?_)
    exact List.mem_map.mpr ⟨0, hzero, rfl⟩
  · have hpos := mul_self_pos.mpr hn
    refine lt_of_lt_of_le hpos (List.single_le_sum hnonneg _ ?_)
    exact List.mem_map.mpr ⟨1, hone, rfl⟩

/-- Normalizing a vector of defined components with positive sum of
squares yields a vector whose sum of squares is exactly 1. -/
theorem jsNormalize_unit {α : Type} (f : α → ℝ) (l : List α)
    (hpos : 0 < ((l.map (fun a => f a * f a)).sum)) :
    sumSquares (jsNormalize (l.map (fun a => some (f a)))) = some 1 := by
  set S := ((l.map (fun a => f a * f a)).sum) with hS
  have hSnn : (0 : ℝ) ≤ S := le_of_lt hpos
  have hsqrt : jsSqrt (sumSquares (l.map (fun a => some (f a)))) =
      some (Real.sqrt S) := by
    rw [sumSquares_map_some, jsSqrt_some, if_neg (not_lt.mpr hSnn)]
  have hm : Real.sqrt S ≠ 0 := ne_of_gt (Real.sqrt_pos.mpr hpos)
  unfold jsNormalize
  rw [hsqrt]
  have hmap : (l.map (fun a => some (f a))).map
      (fun val => jsDiv val (some (Real.sqrt S))) =
      l.map (fun a => some (f a / Real.sqrt S)) := by
    rw [List.map_map]
    refine List.map_congr_left ?_
    intro a _
    show jsDiv (some (f a)) (some (Real.sqrt S)) = _
    rw [jsDiv_some, if_neg hm]
  rw [hmap, sumSquares_map_some]
  congr 1
  calc (l.map (fun a => (f a / Real.sqrt S) * (f a / Real.sqrt S))).sum
      = (l.map (fun a => (f a * f a) * (Real.sqrt S * Real.sqrt S)⁻¹)).sum := by
        refine congrArg List.sum (List.map_congr_left ?_)
        intro a _
        rw [div_mul_div_comm, div_eq_mul_inv]
    _ = S * (Real.sqrt S * Real.sqrt S)⁻¹ := List.sum_map_mul_right _ _ _
    _ = S * S⁻¹ := by rw [Real.mul_self_sqrt hSnn]
    _ = 1 := mul_inv_cancel₀ (ne_of_gt hpos)

/-- C8: for every input text, the vector produced by the fallback
embedding path (`generateFakeEmbedding`) has squared Euclidean norm
exactly 1, hence Euclidean norm exactly 1 — the zero-vector boundary
case never occurs on this path, since the pre-normalization components
`sin(hash*(i+1))/2 + 0.5` cannot all vanish. -/
theorem generateFakeEmbedding_unit_norm (t : String) :
    sumSquares (OpenAIApi.generateFakeEmbedding t) = some 1 ∧
    jsSqrt (sumSquares (OpenAIApi.generateFakeEmbedding t)) = some 1 := by
  have hmain : sumSquares (OpenAIApi.generateFakeEmbedding t) = some 1 := by
    unfold OpenAIApi.generateFakeEmbedding
    exact jsNormalize_unit
      (fun i : Nat =>
        Real.sin (((OpenAIApi.jsHash t : ℤ) : ℝ) * ((i : ℝ) + 1)) / 2 + 0.5)
      (List.range 1536) (fake_raw_sum_pos _)
  refine ⟨hmain, ?_⟩
  rw [hmain, jsSqrt_some, if_neg (by norm_num), Real.sqrt_one]

/-- C9 witness: the related-documents bound applied at the concrete
state `searchWitnessStorage`, document 1 and limit 3. -/
theorem findRelatedDocuments_le_limit_and_excludes_self_witness :
    (MemStorage.findRelatedDocuments searchWitnessStorage 1 3).length ≤ 3 ∧
    ∀ d ∈ MemStorage.findRelatedDocuments searchWitnessStorage 1 3,
      d.id ≠ 1 :=
  findRelatedDocuments_le_limit_and_excludes_self searchWitnessStorage 1 3

/-- A nonzero integer multiple of π is never an integer: π is
irrational. -/
theorem pi_mul_int_ne {d : ℤ} (hd : d ≠ 0) (m : ℤ) :
    (d : ℝ) * Real.pi ≠ (m : ℝ) := by
  intro h
  have hdr : (d : ℝ) ≠ 0 := Int.cast_ne_zero.mpr hd
  have hpi : Real.pi = (m : ℝ) / (d : ℝ) :=
    (eq_div_iff hdr).mpr (by linarith [h])
  have hcast : (((m : ℚ) / (d : ℚ) : ℚ) : ℝ) = (m : ℝ) / (d : ℝ) := by
    push_cast
    ring
  have : Irrational (((m : ℚ) / (d : ℚ) : ℚ) : ℝ) := by
    rw [hcast, ← hpi]
    exact irrational_pi
  exact Rat.not_irrational _ this

/-- The sine function is injective on the integers (radian arguments):
distinct integers have distinct sines, since agreement would place a
nonzero integer combination on a multiple of π. -/
theorem sin_int_ne {p q : ℤ} (hne : p ≠ q) :
    Real.sin (p : ℝ) ≠ Real.sin (q : ℝ) := by
  intro heq
  have h := Real.sin_sub_sin (p : ℝ) (q : ℝ)
  rw [heq, sub_self] at h
  rcases mul_eq_zero.mp h.symm with h1 | h1
  · rcases mul_eq_zero.mp h1 with h2 | h2
    · norm_num at h2
    · obtain ⟨n, hn⟩ := Real.sin_eq_zero_iff.mp h2
      by_cases hn0 : n = 0
      · subst hn0
        have : (p : ℝ) = (q : ℝ) := by
          push_cast at hn
          linarith
        exact hne (Int.cast_injective this)
      · have h2n : (2 * n : ℤ) ≠ 0 := by omega
        refine pi_mul_int_ne h2n (p - q) ?_
        push_cast
        linarith
  · obtain ⟨k, hk⟩ := Real.cos_eq_zero_iff.mp h1
    have hodd : (2 * k + 1 : ℤ) ≠ 0 := by omega
    refine pi_mul_int_ne hodd (p + q) ?_
    push_cast
    linarith

/-- The cosine of a nonzero integer is never 1. -/
theorem cos_int_ne_one {n : ℤ} (hn : n ≠ 0) : Real.cos (n : ℝ) ≠ 1 := by
  intro h
  obtain ⟨k, hk⟩ := (Real.cos_eq_one_iff _).mp h
  by_cases hk0 : k = 0
  · subst hk0
    push_cast at hk
    have : (n : ℝ) = 0 := by linarith
    exact hn (by exact_mod_cast this)
  · have h2k : (2 * k : ℤ) ≠ 0 := by omega
    refine pi_mul_int_ne h2k n ?_
    push_cast
    linarith

/-- Sum-to-product for adjacent sines. -/
theorem sin_add_sin_adj (y x : ℝ) :
    Real.sin (y - x) + Real.sin (y + x) = 2 * Real.sin y * Real.cos x := by
  rw [Real.sin_sub, Real.sin_add]
  ring

/-- Core non-proportionality fact: the four shifted samples
`sin(k a) + 1` (k = 1..4) cannot all be a common multiple of the
corresponding samples `sin(k b) + 1` unless the sines of `a` and `b`
already agree or the samples of `b` degenerate. -/
theorem sin_progression_not_proportional (a b lam : ℝ)
    (hab : Real.sin a ≠ Real.sin b)
    (hcosa : Real.cos a ≠ 1)
    (h2b3b : Real.sin (2 * b) ≠ Real.sin (3 * b))
    (h1 : Real.sin a + 1 = lam * (Real.sin b + 1))
    (h2 : Real.sin (2 * a) + 1 = lam * (Real.sin (2 * b) + 1))
    (h3 : Real.sin (3 * a) + 1 = lam * (Real.sin (3 * b) + 1))
    (h4 : Real.sin (4 * a) + 1 = lam * (Real.sin (4 * b) + 1)) : False := by
  have hA : Real.cos a - 1 ≠ 0 := sub_ne_zero.mpr hcosa
  have sa13 : Real.sin a + Real.sin (3 * a) =
      2 * Real.sin (2 * a) * Real.cos a := by
    have := sin_add_sin_adj (2 * a) a
    rw [show 2 * a - a = a by ring, show 2 * a + a = 3 * a by ring] at this
    exact this
  have sb13 : Real.sin b + Real.sin (3 * b) =
      2 * Real.sin (2 * b) * Real.cos b := by
    have := sin_add_sin_adj (2 * b) b
    rw [show 2 * b - b = b by ring, show 2 * b + b = 3 * b by ring] at this
    exact this
  have sa24 : Real.sin (2 * a) + Real.sin (4 * a) =
      2 * Real.sin (3 * a) * Real.cos a := by
    have := sin_add_sin_adj (3 * a) a
    rw [show 3 * a - a = 2 * a by ring, show 3 * a + a = 4 * a by ring] at this
    exact this
  have sb24 : Real.sin (2 * b) + Real.sin (4 * b) =
      2 * Real.sin (3 * b) * Real.cos b := by
    have := sin_add_sin_adj (3 * b) b
    rw [show 3 * b - b = 2 * b by ring, show 3 * b + b = 4 * b by ring] at this
    exact this
  have hI : Real.sin (2 * a) * (Real.cos a - 1) =
      lam * (Real.sin (2 * b) * (Real.cos b - 1)) := by
    linear_combination h1 / 2 + h3 / 2 - sa13 / 2 + (lam / 2) * sb13 - h2
  have hII : Real.sin (3 * a) * (Real.cos a - 1) =
      lam * (Real.sin (3 * b) * (Real.cos b - 1)) := by
    linear_combination h2 / 2 + h4 / 2 - sa24 / 2 + (lam / 2) * sb24 - h3
  set mu := lam * (Real.cos b - 1) / (Real.cos a - 1) with hmu
  have hI2 : Real.sin (2 * a) = mu * Real.sin (2 * b) := by
    rw [hmu]
    field_simp
    linear_combination hI
  have hII2 : Real.sin (3 * a) = mu * Real.sin (3 * b) := by
    rw [hmu]
    field_simp
    linear_combination hII
  have e2 : (mu - lam) * Real.sin (2 * b) = lam - 1 := by
    linear_combination h2 - hI2
  have e3 : (mu - lam) * Real.sin (3 * b) = lam - 1 := by
    linear_combination h3 - hII2
  by_cases hml : mu = lam
  · have hc : lam = 1 := by
      rw [hml] at e2
      nlinarith [e2]
    rw [hc] at h1
    exact hab (by linarith)
  · have hmlne : mu - lam ≠ 0 := sub_ne_zero.mpr hml
    have : Real.sin (2 * b) = Real.sin (3 * b) :=
      mul_left_cancel₀ hmlne (by rw [e2, e3])
    exact h2b3b this

/-- Normalizing a list of defined components with positive sum of
squares divides every component by the (positive) magnitude. -/
theorem jsNormalize_map_some {α : Type} (f : α → ℝ) (l : List α)
    (hpos : 0 < ((l.map (fun a => f a * f a)).sum)) :
    jsNormalize (l.map (fun a => some (f a))) =
      l.map (fun a =>
        some (f a / Real.sqrt ((l.map (fun b => f b * f b)).sum))) := by
  have hm : Real.sqrt ((l.map (fun b => f b * f b)).sum) ≠ 0 :=
    ne_of_gt (Real.sqrt_pos.mpr hpos)
  unfold jsNormalize
  rw [sumSquares_map_some, jsSqrt_some, if_neg (not_lt.mpr (le_of_lt hpos))]
  rw [List.map_map]
  refine List.map_congr_left ?_
  intro a _
  simp only [Function.comp_apply]
  rw [jsDiv_some, if_neg hm]

/-- C5 counterexample: the texts `"A"` and `"a"` agree after
lowercasing, yet the `openai` module's fallback embedding — which hashes
the raw text, giving seeds 65 and 97 — produces different vectors, so
the fallback of the embed path is not a function of the lowercased
input text. -/
theorem generateFakeEmbedding_not_case_invariant :
    jsToLowerCase "A" = jsToLowerCase "a" ∧
    OpenAIApi.generateFakeEmbedding "A" ≠
      OpenAIApi.generateFakeEmbedding "a" := by
  refine ⟨by decide, ?_⟩
  intro heq
  have hhA : OpenAIApi.jsHash "A" = 65 := by decide
  have hhB : OpenAIApi.jsHash "a" = 97 := by decide
  unfold OpenAIApi.generateFakeEmbedding at heq
  simp only [hhA, hhB] at heq
  rw [jsNormalize_map_some
      (fun i : Nat => Real.sin (((65 : ℤ) : ℝ) * ((i : ℝ) + 1)) / 2 + 0.5)
      (List.range 1536) (fake_raw_sum_pos _),
    jsNormalize_map_some
      (fun i : Nat => Real.sin (((97 : ℤ) : ℝ) * ((i : ℝ) + 1)) / 2 + 0.5)
      (List.range 1536) (fake_raw_sum_pos _)] at heq
  have hcomp := List.map_inj_left.mp heq
  set a : ℝ := ((65 : ℤ) : ℝ) with ha
  set b : ℝ := ((97 : ℤ) : ℝ) with hb
  set m65 : ℝ := Real.sqrt (((List.range 1536).map (fun i : Nat =>
      (Real.sin (a * ((i : ℝ) + 1)) / 2 + 0.5) *
        (Real.sin (a * ((i : ℝ) + 1)) / 2 + 0.5))).sum) with hm65def
  set m97 : ℝ := Real.sqrt (((List.range 1536).map (fun i : Nat =>
      (Real.sin (b * ((i : ℝ) + 1)) / 2 + 0.5) *
        (Real.sin (b * ((i : ℝ) + 1)) / 2 + 0.5))).sum) with hm97def
  have hm65 : m65 ≠ 0 := ne_of_gt (Real.sqrt_pos.mpr (fake_raw_sum_pos a))
  have hm97 : m97 ≠ 0 := ne_of_gt (Real.sqrt_pos.mpr (fake_raw_sum_pos b))
  have c0 := Option.some.inj (hcomp 0 (List.mem_range.mpr (by norm_num)))
  have c1 := Option.some.inj (hcomp 1 (List.mem_range.mpr (by norm_num)))
  have c2 := Option.some.inj (hcomp 2 (List.mem_range.mpr (by norm_num)))
  have c3 := Option.some.inj (hcomp 3 (List.mem_range.mpr (by norm_num)))
  rw [show a * (((0 : Nat) : ℝ) + 1) = a by push_cast; ring,
    show b * (((0 : Nat) : ℝ) + 1) = b by push_cast; ring] at c0
  rw [show a * (((1 : Nat) : ℝ) + 1) = 2 * a by push_cast; ring,
    show b * (((1 : Nat) : ℝ) + 1) = 2 * b by push_cast; ring] at c1
  rw [show a * (((2 : Nat) : ℝ) + 1) = 3 * a by push_cast; ring,
    show b * (((2 : Nat) : ℝ) + 1) = 3 * b by push_cast; ring] at c2
  rw [show a * (((3 : Nat) : ℝ) + 1) = 4 * a by push_cast; ring,
    show b * (((3 : Nat) : ℝ) + 1) = 4 * b by push_cast; ring] at c3
  have cr0 := (div_eq_div_iff hm65 hm97).mp c0
  have cr1 := (div_eq_div_iff hm65 hm97).mp c1
  have cr2 := (div_eq_div_iff hm65 hm97).mp c2
  have cr3 := (div_eq_div_iff hm65 hm97).mp c3
  have h1 : Real.sin a + 1 = (m65 / m97) * (Real.sin b + 1) := by
    field_simp
    linear_combination 2 * cr0
  have h2 : Real.sin (2 * a) + 1 = (m65 / m97) * (Real.sin (2 * b) + 1) := by
    field_simp
    linear_combination 2 * cr1
  have h3 : Real.sin (3 * a) + 1 = (m65 / m97) * (Real.sin (3 * b) + 1) := by
    field_simp
    linear_combination 2 * cr2
  have h4 : Real.sin (4 * a) + 1 = (m65 / m97) * (Real.sin (4 * b) + 1) := by
    field_simp
    linear_combination 2 * cr3
  have hab : Real.sin a ≠ Real.sin b := sin_int_ne (by decide)
  have hcosa : Real.cos a ≠ 1 := cos_int_ne_one (by decide)
  have h2b3b : Real.sin (2 * b) ≠ Real.sin (3 * b) := by
    rw [show 2 * b = ((194 : ℤ) : ℝ) by rw [hb]; push_cast; norm_num,
      show 3 * b = ((291 : ℤ) : ℝ) by rw [hb]; push_cast; norm_num]
    exact sin_int_ne (by decide)
  exact sin_progression_not_proportional a b (m65 / m97)
    hab hcosa h2b3b h1 h2 h3 h4
